import Mathlib

/-!
Verification of the gbsdiff core against its design document.

The definitions below are a shallow embedding of the Rust sources:

* `src/main.rs` — the diagnostic data model (`Timestamp`, `Address`,
  `Diagnostic`, `DiagnosticLevel`);
* `src/diff.rs` — the streaming diff generator (`DiffGenerator`);
* `src/gbs.rs` — the GBS container parser (`Gbs::new`);
* `src/run/mod.rs` — the logbook writer, the PLAY loop's termination
  checks and the call-frame interpreter (`run_func`);
* `src/run/addr_space.rs` — the address space and the APU model.

Machine integers are embedded as `Nat` (with explicit `% 2 ^ 16` or
`% 2 ^ 32` where the Rust code relies on wrapping), fallible operations as
`Option`/`Except`, and the single-threaded interior mutability of the
logbook writer as explicit state passing.
-/

namespace Gbsdiff

/-- Timestamp `(tick, cycle)` of a logged event; `Timestamp` in `src/main.rs`.
`tick` is a `u64` PLAY-invocation counter (tick 0 is the INIT phase) and
`cycle` a `u16` cycle counter zeroed at the start of each tick. -/
structure Timestamp where
  tick : Nat
  cycle : Nat
  deriving DecidableEq

/-- Lexicographic order on timestamps, first by tick then by cycle. -/
def Timestamp.le (x y : Timestamp) : Prop :=
  x.tick < y.tick ∨ (x.tick = y.tick ∧ x.cycle ≤ y.cycle)

/-- Program-counter address `(rom_bank, offset)`; `Address` in `src/main.rs`. -/
structure Address where
  bank : Nat
  offset : Nat
  deriving DecidableEq

/-- One logged write to the I/O space; `IoAccess` in `src/run/mod.rs`. -/
structure IoAccess where
  when : Timestamp
  pc : Address
  addr : Nat
  data : Nat
  deriving DecidableEq

/-- Severity levels; `DiagnosticLevel` in `src/main.rs`.  The Rust type
derives `Ord`, which orders variants by declaration order:
`Error < Warning < Note`. -/
inductive DiagnosticLevel where
  | Error
  | Warning
  | Note
  deriving DecidableEq

/-- Ordinal of a level, realising the derived `Ord` of the Rust enum. -/
def DiagnosticLevel.toNat : DiagnosticLevel → Nat
  | .Error => 0
  | .Warning => 1
  | .Note => 2

/-- Comparison `level <= max_level` used by the logbook writer's filter. -/
def DiagnosticLevel.le (x y : DiagnosticLevel) : Prop :=
  x.toNat ≤ y.toNat

instance : DecidablePred fun p : DiagnosticLevel × DiagnosticLevel => p.1.le p.2 :=
  fun _ => by unfold DiagnosticLevel.le; infer_instance

instance (x y : DiagnosticLevel) : Decidable (x.le y) := by
  unfold DiagnosticLevel.le; infer_instance

/-- A diagnostic record; `Diagnostic<K>` in `src/main.rs`. -/
structure Diagnostic (K : Type) where
  when : Timestamp
  pc : Address
  level : DiagnosticLevel
  kind : K
  deriving DecidableEq

/-- Kinds of diff diagnostics; `DiagnosticKind` in `src/diff.rs`. -/
inductive DiffKind where
  | Removed (addr : Nat) (data : Nat)
  | Added (addr : Nat) (data : Nat)
  | Moved (addr : Nat) (data : Nat) (delta : Int)
  | OtherValue (addr : Nat) (dataBefore : Nat) (dataAfter : Nat)
  | OtherReg (addrBefore : Nat) (data : Nat) (addrAfter : Nat)
  deriving DecidableEq

/-- Helper `diagnose` of `src/diff.rs`: a diagnostic stamped with the
timestamp and PC of the access it concerns. -/
def mkDiag (access : IoAccess) (level : DiagnosticLevel) (kind : DiffKind) :
    Diagnostic DiffKind :=
  { when := access.when, pc := access.pc, level := level, kind := kind }

/-- `u16::abs_diff`, used for the jitter comparison in `src/diff.rs`. -/
def absDiff (x y : Nat) : Nat := max x y - min x y

/-- One draining run of `DiffGenerator::next` (`src/diff.rs`), embedded as a
function from the two remaining logs to the produced diagnostics.  The
iterator state `(logs, indices)` corresponds to the two lists of not yet
consumed accesses; `logs.0.get(indices.0 + 1)` of the lookahead becomes
`head?` of the first list's tail.  The `fuel` argument bounds the number of
loop iterations: every iteration advances at least one cursor, so the
wrapper `diffGen` passes `|before| + |after|`, which is always enough.
`Moved.delta` is `(after.cycle as i32).wrapping_sub(before.cycle as i32)`;
both cycles are `u16`, so the subtraction never wraps and is embedded as
exact `Int` subtraction. -/
def diffStepFuel (jitter : Nat) :
    Nat → List IoAccess → List IoAccess → List (Diagnostic DiffKind)
  | 0, _, _ => []
  | _ + 1, [], [] => []
  | fuel + 1, b :: bs, [] =>
      mkDiag b .Error (.Removed b.addr b.data) :: diffStepFuel jitter fuel bs []
  | fuel + 1, [], a :: ats =>
      mkDiag a .Error (.Added a.addr a.data) :: diffStepFuel jitter fuel [] ats
  | fuel + 1, b :: bs, a :: ats =>
      if b.when.tick < a.when.tick then
        mkDiag b .Error (.Removed b.addr b.data) :: diffStepFuel jitter fuel bs (a :: ats)
      else if a.when.tick < b.when.tick then
        mkDiag a .Error (.Added a.addr a.data) :: diffStepFuel jitter fuel (b :: bs) ats
      else if b = a then
        diffStepFuel jitter fuel bs ats
      else if b.addr = a.addr then
        if b.data = a.data then
          mkDiag a
              (if absDiff b.when.cycle a.when.cycle < jitter then .Note else .Error)
              (.Moved b.addr b.data ((a.when.cycle : Int) - (b.when.cycle : Int)))
            :: diffStepFuel jitter fuel bs ats
        else
          mkDiag a .Error (.OtherValue b.addr b.data a.data) :: diffStepFuel jitter fuel bs ats
      else if b.data = a.data then
        mkDiag a .Error (.OtherReg b.addr b.data a.addr) :: diffStepFuel jitter fuel bs ats
      else if bs.head?.map IoAccess.addr = some a.addr then
        mkDiag b .Error (.Removed b.addr b.data) :: diffStepFuel jitter fuel bs (a :: ats)
      else if ats.head?.map IoAccess.addr = some b.addr then
        mkDiag a .Error (.Added a.addr a.data) :: diffStepFuel jitter fuel (b :: bs) ats
      else if b.when.cycle < a.when.cycle then
        mkDiag b .Error (.Removed b.addr b.data) :: diffStepFuel jitter fuel bs (a :: ats)
      else
        mkDiag a .Error (.Added a.addr a.data) :: diffStepFuel jitter fuel (b :: bs) ats

/-- The full diagnostic stream of `DiffGenerator::new(before, after, jitter)`. -/
def diffGen (jitter : Nat) (before after : List IoAccess) : List (Diagnostic DiffKind) :=
  diffStepFuel jitter (before.length + after.length) before after

/-- Kind transformation of spec property 9: exchange `Removed` and `Added`,
negate the `Moved` delta, swap the argument order of `OtherValue` and of
`OtherReg`. -/
def swapKind : DiffKind → DiffKind
  | .Removed r v => .Added r v
  | .Added r v => .Removed r v
  | .Moved r v d => .Moved r v (-d)
  | .OtherValue r x y => .OtherValue r y x
  | .OtherReg r v s => .OtherReg s v r

/-- The transformation of spec property 9 on a whole diagnostic: the kind is
exchanged, everything else (level, timestamp, PC) kept. -/
def swapDiag (d : Diagnostic DiffKind) : Diagnostic DiffKind :=
  { d with kind := swapKind d.kind }

/-- Little-endian 16-bit read at a fixed offset; `Gbs::read16` in
`src/gbs.rs`.  Bytes outside the list read as 0; `Gbs::new` only reads
offsets below 0x70 after checking the length. -/
def read16 (data : List Nat) (ofs : Nat) : Nat :=
  data.getD ofs 0 + 256 * data.getD (ofs + 1) 0

/-- The three validated entry-point addresses; `AddressKind` in `src/gbs.rs`. -/
inductive AddressKind where
  | load
  | init
  | play
  deriving DecidableEq

/-- Header offset of each address; `AddressKind::ofs` in `src/gbs.rs`. -/
def AddressKind.ofs : AddressKind → Nat
  | .load => 6
  | .init => 8
  | .play => 10

/-- Parse errors; `FormatError` in `src/gbs.rs`.  `BadMagic` carries the
first three bytes (`&data[0..3]`). -/
inductive FormatError where
  | TruncatedHeader (len : Nat)
  | BadMagic (magic : List Nat)
  | UnsupportedVersion (v : Nat)
  | ZeroSongs
  | BadAddress (kind : AddressKind) (addr : Nat)
  deriving DecidableEq

/-- `Gbs::addr` in `src/gbs.rs`. -/
def gbsAddr (data : List Nat) (kind : AddressKind) : Nat := read16 data kind.ofs

/-- `Gbs::nb_songs` in `src/gbs.rs`. -/
def gbsNbSongs (data : List Nat) : Nat := data.getD 4 0

/-- `Gbs::new` in `src/gbs.rs`: header validation, returning the blob on
success.  The magic is the ASCII bytes of "GBS"; the `for` loop over
`[Init, Play]` is unrolled in source order. -/
def gbsNew (data : List Nat) : Except FormatError (List Nat) :=
  if data.length < 0x70 then .error (.TruncatedHeader data.length)
  else if data.take 3 ≠ [0x47, 0x42, 0x53] then .error (.BadMagic (data.take 3))
  else if data.getD 3 0 ≠ 1 then .error (.UnsupportedVersion (data.getD 3 0))
  else if gbsNbSongs data = 0 then .error .ZeroSongs
  else if ¬ (0x400 ≤ gbsAddr data .load ∧ gbsAddr data .load ≤ 0x4000) then
    .error (.BadAddress .load (gbsAddr data .load))
  else if ¬ (gbsAddr data .load ≤ gbsAddr data .init ∧ gbsAddr data .init < 0x8000) then
    .error (.BadAddress .init (gbsAddr data .init))
  else if ¬ (gbsAddr data .load ≤ gbsAddr data .play ∧ gbsAddr data .play < 0x8000) then
    .error (.BadAddress .play (gbsAddr data .play))
  else .ok data

/-- `Gbs::timer_mod` in `src/gbs.rs`. -/
def gbsTimerMod (data : List Nat) : Nat := data.getD 14 0

/-- `Gbs::timer_ctrl` in `src/gbs.rs`. -/
def gbsTimerCtrl (data : List Nat) : Nat := data.getD 15 0

/-- `Gbs::timer_div_bit` in `src/gbs.rs`: bits 0-1 of `timer_ctrl` select
the DIV bit through the table {9, 3, 5, 7}. -/
def timerDivBit (ctrl : Nat) : Nat :=
  match ctrl &&& 3 with
  | 0 => 9
  | 1 => 3
  | 2 => 5
  | _ => 7

/-- `Gbs::use_timer` in `src/gbs.rs`: bit 2 of `timer_ctrl`. -/
def useTimer (ctrl : Nat) : Bool := ctrl &&& 4 != 0

/-- `Gbs::double_speed` in `src/gbs.rs`: bit 7 of `timer_ctrl`.  Never
consulted by `simulate_song`. -/
def doubleSpeed (ctrl : Nat) : Bool := ctrl &&& 0x80 != 0

/-- Cycles per PLAY tick, from `simulate_song` in `src/run/mod.rs`:
`(1u16 << timer_div_bit) * (256u16 - timer_mod)` in wrapping u16
arithmetic when `use_timer` is set, else `114 * 154` (one video frame).
`timer_mod` is a `u8`, so `256 - tmod` never underflows, and
`1 << timer_div_bit ≤ 512` never overflows; only the product wraps. -/
def cyclesPerTick (ctrl tmod : Nat) : Nat :=
  if useTimer ctrl then ((1 <<< timerDivBit ctrl) * (256 - tmod)) % 2 ^ 16
  else 114 * 154

/-- Kinds of simulation diagnostics; `DiagnosticKind` in `src/run/mod.rs`. -/
inductive SimKind where
  | UnsupportedRead (addr : Address)
  | UnsupportedWrite (addr : Address) (data : Nat)
  | EchoRamRead (addr : Address)
  | EchoRamWrite (addr : Address) (data : Nat)
  | TooLong (cycles : Nat) (budget : Nat)
  | DebugOp (addr : Address)
  deriving DecidableEq

/-- A simulation logbook; `Logbook` in `src/run/mod.rs`. -/
structure Logbook where
  diagnostics : List (Diagnostic SimKind)
  io_log : List IoAccess
  deriving DecidableEq

/-- `LogbookWriter` in `src/run/mod.rs`: the logbook plus the mutable
per-simulation state (the canonical `rom_bank`, the current PC, tick and
cycle). -/
structure LogbookWriter where
  logbook : Logbook
  max_level : DiagnosticLevel
  rom_bank : Nat
  pc : Nat
  tick : Nat
  cycle : Nat
  deriving DecidableEq

/-- `LogbookWriter::new`: empty logbook, `rom_bank = 1`, everything else 0. -/
def LogbookWriter.new (maxLevel : DiagnosticLevel) : LogbookWriter :=
  { logbook := ⟨[], []⟩, max_level := maxLevel, rom_bank := 1, pc := 0, tick := 0, cycle := 0 }

/-- `LogbookWriter::now`. -/
def LogbookWriter.now (w : LogbookWriter) : Timestamp := ⟨w.tick, w.cycle⟩

/-- `LogbookWriter::next_tick`. -/
def LogbookWriter.next_tick (w : LogbookWriter) : LogbookWriter :=
  { w with tick := w.tick + 1, cycle := 0 }

/-- `LogbookWriter::log`: append an `IoAccess` stamped with the current
timestamp and `(rom_bank, pc)`. -/
def LogbookWriter.log (w : LogbookWriter) (addr data : Nat) : LogbookWriter :=
  { w with logbook :=
      { w.logbook with io_log :=
          w.logbook.io_log ++ [⟨w.now, ⟨w.rom_bank, w.pc⟩, addr, data⟩] } }

/-- `LogbookWriter::diagnose`: append a diagnostic when its level passes
the `max_level` filter (`level <= max_level` in the derived order
`Error < Warning < Note`). -/
def LogbookWriter.diagnose (w : LogbookWriter) (level : DiagnosticLevel) (kind : SimKind) :
    LogbookWriter :=
  if level.le w.max_level then
    { w with logbook :=
        { w.logbook with diagnostics :=
            w.logbook.diagnostics ++ [⟨w.now, ⟨w.rom_bank, w.pc⟩, level, kind⟩] } }
  else w

/-- Mutable simulation state reachable from `GbsAddrSpace`
(`src/run/addr_space.rs`): the three RAM arrays and the `Apu` register
file as address-indexed functions, the shared logbook writer, and the
shared `silence_timer` cell.  `apu` stores the 21 named byte registers
`nr10..nr52` and the 16 `wave_ram` bytes of the Rust `Apu` struct, keyed
by their I/O address (`wave_ram[addr - 0xFF30]` is the byte keyed by
`addr`); all are zero-initialised.  The ROM slice and `load_addr` are
omitted: they are consulted only by reads of the two ROM windows, which no
claim concerns. -/
structure SimSt where
  sram : Nat → Nat
  wram : Nat → Nat
  hram : Nat → Nat
  apu : Nat → Nat
  writer : LogbookWriter
  silence_timer : Nat

/-- The state at the start of a simulation: zeroed RAM and APU registers,
fresh writer, silence timer 0. -/
def SimSt.start (maxLevel : DiagnosticLevel) : SimSt :=
  { sram := fun _ => 0, wram := fun _ => 0, hram := fun _ => 0, apu := fun _ => 0,
    writer := LogbookWriter.new maxLevel, silence_timer := 0 }

/-- The addresses whose `Apu::write` arm stores the incoming byte: the 21
named registers (`HwReg::Nr10` = 0xFF10 through `HwReg::Nr52` = 0xFF26,
skipping the holes 0xFF15 and 0xFF1F) and the 16 wave-RAM bytes
(`HwReg::Wave0..WaveF` = 0xFF30..0xFF3F).  The address-to-register mapping
of `gb_cpu_sim::reg::HwReg` is the standard Game Boy I/O map, mirrored by
the `Reg` enum in `src/reg_log.rs`. -/
def apuStoreTargets : List Nat :=
  [0xFF10, 0xFF11, 0xFF12, 0xFF13, 0xFF14,
   0xFF16, 0xFF17, 0xFF18, 0xFF19,
   0xFF1A, 0xFF1B, 0xFF1C, 0xFF1D, 0xFF1E,
   0xFF20, 0xFF21, 0xFF22, 0xFF23,
   0xFF24, 0xFF25, 0xFF26,
   0xFF30, 0xFF31, 0xFF32, 0xFF33, 0xFF34, 0xFF35, 0xFF36, 0xFF37,
   0xFF38, 0xFF39, 0xFF3A, 0xFF3B, 0xFF3C, 0xFF3D, 0xFF3E, 0xFF3F]

/-- `Apu::write` in `src/run/addr_space.rs`.  The access is logged first,
before the register match.  A stored-register or wave-RAM arm then stores
the byte; the 0xFF15/0xFF1F hole arms emit a Note `UnsupportedWrite`; both
fall through to `silence_timer.set(0)` and report handled (`Some(())`).
Any other address reports unhandled (`None`, the `Bool` here) with the log
entry already appended and the silence timer untouched. -/
def apuWrite (s : SimSt) (addr data : Nat) : SimSt × Bool :=
  let s1 := { s with writer := s.writer.log addr data }
  if addr ∈ apuStoreTargets then
    ({ s1 with apu := Function.update s1.apu addr data, silence_timer := 0 }, true)
  else if addr = 0xFF15 ∨ addr = 0xFF1F then
    ({ s1 with
        writer := s1.writer.diagnose .Note
          (.UnsupportedWrite ⟨s1.writer.rom_bank, addr⟩ data),
        silence_timer := 0 }, true)
  else (s1, false)

/-- `Apu::read` in `src/run/addr_space.rs`: the read-back masks, the
write-only registers returning 0xFF, the diagnosed holes, and wave RAM;
`None` for addresses the APU does not handle. -/
def apuRead (s : SimSt) (addr : Nat) : Option (Nat × SimSt) :=
  if addr = 0xFF10 then some (s.apu addr ||| 0x80, s)
  else if addr = 0xFF11 then some (s.apu addr ||| 0x3F, s)
  else if addr = 0xFF12 then some (s.apu addr, s)
  else if addr = 0xFF13 then some (0xFF, s)
  else if addr = 0xFF14 then some (s.apu addr ||| 0xBF, s)
  else if addr = 0xFF15 then
    some (0xFF,
      { s with
          writer := s.writer.diagnose .Note (.UnsupportedRead ⟨s.writer.rom_bank, addr⟩) })
  else if addr = 0xFF16 then some (s.apu addr ||| 0x3F, s)
  else if addr = 0xFF17 then some (s.apu addr, s)
  else if addr = 0xFF18 then some (0xFF, s)
  else if addr = 0xFF19 then some (s.apu addr ||| 0xBF, s)
  else if addr = 0xFF1A then some (s.apu addr ||| 0x7F, s)
  else if addr = 0xFF1B then some (s.apu addr, s)
  else if addr = 0xFF1C then some (s.apu addr, s)
  else if addr = 0xFF1D then some (0xFF, s)
  else if addr = 0xFF1E then some (s.apu addr ||| 0xBF, s)
  else if addr = 0xFF1F then
    some (0xFF,
      { s with
          writer := s.writer.diagnose .Note (.UnsupportedRead ⟨s.writer.rom_bank, addr⟩) })
  else if addr = 0xFF20 then some (s.apu addr ||| 0xC0, s)
  else if addr = 0xFF21 then some (s.apu addr, s)
  else if addr = 0xFF22 then some (0xFF, s)
  else if addr = 0xFF23 then some (s.apu addr ||| 0xBF, s)
  else if addr = 0xFF24 then some (s.apu addr, s)
  else if addr = 0xFF25 then some (s.apu addr, s)
  else if addr = 0xFF26 then some (s.apu addr ||| 0x70, s)
  else if 0xFF30 ≤ addr ∧ addr ≤ 0xFF3F then some (s.apu addr, s)
  else none

/-- `<GbsAddrSpace as AddressSpace>::write` in `src/run/addr_space.rs`,
match arms in source order: the `0x2000..=0x3FFF` bank latch comes first
(its diagnostic for a written 0 reads the just-updated bank, hence bank 0
in the stamp), then the remaining `0x0000..=0x7FFF` ROM area, VRAM, SRAM,
WRAM, echo RAM (diagnose then mirror into WRAM), OAM/forbidden, the I/O
page delegated to the APU (a Warning `UnsupportedWrite` when unhandled),
HRAM, and IE at 0xFFFF.  Addresses are `u16`. -/
def gbsWrite (s : SimSt) (addr data : Nat) : SimSt :=
  if 0x2000 ≤ addr ∧ addr ≤ 0x3FFF then
    let s1 := { s with writer := { s.writer with rom_bank := data } }
    if data = 0 then
      { s1 with
          writer := s1.writer.diagnose .Warning
            (.UnsupportedWrite ⟨s1.writer.rom_bank, addr⟩ data) }
    else s1
  else if addr ≤ 0x7FFF then
    { s with
        writer := s.writer.diagnose .Warning
          (.UnsupportedWrite ⟨s.writer.rom_bank, addr⟩ data) }
  else if addr ≤ 0x9FFF then
    { s with
        writer := s.writer.diagnose .Warning
          (.UnsupportedWrite ⟨s.writer.rom_bank, addr⟩ data) }
  else if addr ≤ 0xBFFF then
    { s with sram := Function.update s.sram (addr - 0xA000) data }
  else if addr ≤ 0xDFFF then
    { s with wram := Function.update s.wram (addr - 0xC000) data }
  else if addr ≤ 0xFDFF then
    let s1 := { s with
        writer := s.writer.diagnose .Note
          (.EchoRamWrite ⟨s.writer.rom_bank, addr⟩ data) }
    { s1 with wram := Function.update s1.wram (addr - 0xE000) data }
  else if addr ≤ 0xFEFF then
    { s with
        writer := s.writer.diagnose .Warning
          (.UnsupportedWrite ⟨s.writer.rom_bank, addr⟩ data) }
  else if addr ≤ 0xFF7F then
    match apuWrite s addr data with
    | (s1, true) => s1
    | (s1, false) =>
        { s1 with
            writer := s1.writer.diagnose .Warning
              (.UnsupportedWrite ⟨s1.writer.rom_bank, addr⟩ data) }
  else if addr ≤ 0xFFFE then
    { s with hram := Function.update s.hram (addr - 0xFF80) data }
  else
    { s with
        writer := s.writer.diagnose .Warning
          (.UnsupportedWrite ⟨s.writer.rom_bank, addr⟩ data) }

/-- Fold a sequence of `Apu::write` calls over the simulation state. -/
def applyApuWrites (s : SimSt) (ws : List (Nat × Nat)) : SimSt :=
  ws.foldl (fun st w => (apuWrite st w.1 w.2).1) s

/-- Data of the last write in `ws` targeting address `r`, if any. -/
def lastWrite (ws : List (Nat × Nat)) (r : Nat) : Option Nat :=
  ws.foldl (fun acc w => if w.1 = r then some w.2 else acc) none

/-- The read-back mask of each stored APU register and wave-RAM byte, as
the spec states them: `read(R)` returns the stored byte OR the mask.  Mask
0xFF marks the write-only frequency registers NR13/NR23/NR33/NR43, whose
reads return 0xFF outright; mask 0 the registers and wave bytes read back
unchanged.  This table is the spec side, to be compared against
`apuRead`. -/
def apuMaskTable : List (Nat × Nat) :=
  [(0xFF10, 0x80), (0xFF11, 0x3F), (0xFF12, 0x00), (0xFF13, 0xFF), (0xFF14, 0xBF),
   (0xFF16, 0x3F), (0xFF17, 0x00), (0xFF18, 0xFF), (0xFF19, 0xBF),
   (0xFF1A, 0x7F), (0xFF1B, 0x00), (0xFF1C, 0x00), (0xFF1D, 0xFF), (0xFF1E, 0xBF),
   (0xFF20, 0xC0), (0xFF21, 0x00), (0xFF22, 0xFF), (0xFF23, 0xBF),
   (0xFF24, 0x00), (0xFF25, 0x00), (0xFF26, 0x70),
   (0xFF30, 0x00), (0xFF31, 0x00), (0xFF32, 0x00), (0xFF33, 0x00),
   (0xFF34, 0x00), (0xFF35, 0x00), (0xFF36, 0x00), (0xFF37, 0x00),
   (0xFF38, 0x00), (0xFF39, 0x00), (0xFF3A, 0x00), (0xFF3B, 0x00),
   (0xFF3C, 0x00), (0xFF3D, 0x00), (0xFF3E, 0x00), (0xFF3F, 0x00)]

/-- Fatal simulation errors; `Error` in `src/run/mod.rs`. -/
inductive RunError where
  | Halted (pc : Address)
  | Stopped (pc : Address)
  | InvalidOpcode (opcode : Nat) (pc : Address)
  | PoppedTooDeep (sp : Nat) (origSp : Nat)
  | LockedUp (pc : Address)
  | Timeout
  | PcHaywire (pc : Address)
  | SpHaywire (sp : Address) (pc : Address)
  deriving DecidableEq

/-- Result reported by one `cpu.tick()`; `TickResult` in the external
`gb_cpu_sim` crate. -/
inductive TickOutcome where
  | Ok
  | Debug
  | Break
  | Halt
  | Stop
  | InvalidOpcode
  deriving DecidableEq

/-- One abstracted CPU instruction step: the tick result, the
`cycles_elapsed` it reports (a u16 after `try_into`), the opcode byte at
the previous PC (consulted only for the `InvalidOpcode` error), and the SP
and PC after the instruction.  The CPU decoder is an external crate
(out of the spec's scope); `run_func` is verified over arbitrary step
scripts. -/
structure CpuStep where
  tickResult : TickOutcome
  cycles : Nat
  opcode : Nat
  spAfter : Nat
  pcAfter : Nat
  deriving DecidableEq

/-- Result of `run_func` over a finite step script: either the Rust
function returned (the `Except` mirrors its `Result`), or the script ran
out while the loop would still continue. -/
inductive RunFuncResult where
  | finished (r : Except RunError Nat)
  | outOfScript (sp pc total : Nat)

/-- Loop-exit result of `run_func`: success iff `sp == orig_sp.wrapping_add(2)`
(the pseudo-return address has been popped), returning the accumulated
cycles; else `PoppedTooDeep(sp, orig_sp)`. -/
def runFuncExit (origSp sp total : Nat) : Except RunError Nat :=
  if sp = (origSp + 2) % 2 ^ 16 then .ok total else .error (.PoppedTooDeep sp origSp)

/-- `run_func` in `src/run/mod.rs` over an abstract CPU step script.  The
loop runs while `0x8000 ≤ sp ∧ sp ≤ origSp` (`orig_sp` is the SP recorded
on entry); each iteration checks PC then SP against the haywire range
`[0xFF00, 0xFF7F]`, steps the CPU, maps `Halt`/`Stop`/`InvalidOpcode` to
fatal errors (`Debug`/`Break` only emit a Note `DebugOp` diagnostic, not
modelled here), and accumulates `cycles_elapsed` into the u16
`total_cycles`, failing with `LockedUp` when the checked add overflows.
The writer's `rom_bank` (only the stamp of the error addresses) is
abstracted as the fixed `bank` parameter, which no claim inspects. -/
def runFunc (bank origSp : Nat) : Nat → Nat → Nat → List CpuStep → RunFuncResult
  | sp, pc, total, [] =>
      if 0x8000 ≤ sp ∧ sp ≤ origSp then
        if 0xFF00 ≤ pc ∧ pc ≤ 0xFF7F then .finished (.error (.PcHaywire ⟨bank, pc⟩))
        else if 0xFF00 ≤ sp ∧ sp ≤ 0xFF7F then
          .finished (.error (.SpHaywire ⟨bank, sp⟩ ⟨bank, pc⟩))
        else .outOfScript sp pc total
      else .finished (runFuncExit origSp sp total)
  | sp, pc, total, step :: rest =>
      if 0x8000 ≤ sp ∧ sp ≤ origSp then
        if 0xFF00 ≤ pc ∧ pc ≤ 0xFF7F then .finished (.error (.PcHaywire ⟨bank, pc⟩))
        else if 0xFF00 ≤ sp ∧ sp ≤ 0xFF7F then
          .finished (.error (.SpHaywire ⟨bank, sp⟩ ⟨bank, pc⟩))
        else
          match step.tickResult with
          | .Halt => .finished (.error (.Halted ⟨bank, pc⟩))
          | .Stop => .finished (.error (.Stopped ⟨bank, pc⟩))
          | .InvalidOpcode => .finished (.error (.InvalidOpcode step.opcode ⟨bank, pc⟩))
          | _ =>
              if total + step.cycles ≤ 0xFFFF then
                runFunc bank origSp step.spAfter step.pcAfter (total + step.cycles) rest
              else .finished (.error (.LockedUp ⟨bank, pc⟩))
      else .finished (runFuncExit origSp sp total)

/-- Input to one iteration of the PLAY loop, abstracting the CPU activity
of the tick: the result of `run_func` and the byte the address space
returns for the watch address (`cpu.read(addr)`). -/
structure TickInput where
  runResult : Except RunError Nat
  watchRead : Nat

/-- The way a simulated song stops. -/
inductive SongOutcome where
  | silenceStop
  | watchStop
  | timeoutStop
  | timeoutError
  | fatal (e : RunError)
  deriving DecidableEq

/-- The PLAY loop of `simulate_song` (`src/run/mod.rs`) with the per-tick
CPU activity abstracted by `TickInput`s.  Each iteration runs `run_func`
(a fatal error aborts the song), then checks, in source order: the
silence timeout (`silence_timer >= silence_timeout` stops the song),
otherwise advances the silence timer by `cycles_per_tick` (u32
arithmetic); the watch predicate (`memory[addr] == value` stops the
song); the wall timeout via `checked_sub` (underflow stops the song when
`allow_timeout`, else fails with the `Timeout` error).  Returns `none`
when the modelled tick inputs run out with the loop still going.  The
`TooLong` budget check only appends a Warning diagnostic and is not
modelled. -/
def playLoop (silenceTimeout cyclesPT : Nat) (watch : Option (Nat × Nat))
    (allowTimeout : Bool) :
    Nat → Nat → List TickInput → Option SongOutcome
  | _, _, [] => none
  | silence, timeout, t :: rest =>
    match t.runResult with
    | .error e => some (.fatal e)
    | .ok _ =>
      if silenceTimeout ≤ silence then some .silenceStop
      else if (match watch with
          | some (_, v) => t.watchRead == v
          | none => false) then some .watchStop
      else if cyclesPT ≤ timeout then
        playLoop silenceTimeout cyclesPT watch allowTimeout
          ((silence + cyclesPT) % 2 ^ 32) (timeout - cyclesPT) rest
      else if allowTimeout then some .timeoutStop
      else some .timeoutError

theorem diffStepFuel_irrel (jitter : Nat) :
    ∀ fuel b a, b.length + a.length ≤ fuel →
      diffStepFuel jitter fuel b a = diffGen jitter b a := by
  intro fuel
  induction fuel using Nat.strong_induction_on with
  | _ fuel ih =>
    intro b a h
    match fuel, b, a with
    | fuel, [], [] =>
        cases fuel <;> rfl
    | 0, x :: bs, a =>
        simp at h
    | 0, [], a :: ats =>
        simp at h
    | fuel + 1, x :: bs, [] =>
        have hlt : bs.length ≤ fuel := by
          simp only [List.length_cons, List.length_nil, Nat.add_zero] at h; omega
        have l1 := ih fuel (by omega) bs []
          (by simp only [List.length_nil, Nat.add_zero]; omega)
        have l2 := ih bs.length (by omega) bs []
          (by simp only [List.length_nil, Nat.add_zero]; omega)
        show mkDiag x .Error (.Removed x.addr x.data) :: diffStepFuel jitter fuel bs []
          = mkDiag x .Error (.Removed x.addr x.data) :: diffStepFuel jitter bs.length bs []
        rw [l1, l2]
    | fuel + 1, [], a :: ats =>
        have hlt : ats.length ≤ fuel := by
          simp only [List.length_cons, List.length_nil, Nat.zero_add] at h; omega
        have l1 := ih fuel (by omega) [] ats
          (by simp only [List.length_nil, Nat.zero_add]; omega)
        have l2 := ih (0 + ats.length) (by omega) [] ats
          (by simp only [List.length_nil, Nat.zero_add]; omega)
        show mkDiag a .Error (.Added a.addr a.data) :: diffStepFuel jitter fuel [] ats
          = mkDiag a .Error (.Added a.addr a.data) :: diffStepFuel jitter (0 + ats.length) [] ats
        rw [l1, l2]
    | fuel + 1, b :: bs, a :: ats =>
        have hfit : bs.length + 1 + (ats.length + 1) ≤ fuel + 1 := by
          simp only [List.length_cons] at h; omega
        have e1 : diffStepFuel jitter fuel bs (a :: ats)
            = diffStepFuel jitter (bs.length + 1 + ats.length) bs (a :: ats) := by
          rw [ih fuel (by omega) bs (a :: ats) (by simp only [List.length_cons]; omega),
            ih (bs.length + 1 + ats.length) (by omega) bs (a :: ats)
              (by simp only [List.length_cons]; omega)]
        have e2 : diffStepFuel jitter fuel (b :: bs) ats
            = diffStepFuel jitter (bs.length + 1 + ats.length) (b :: bs) ats := by
          rw [ih fuel (by omega) (b :: bs) ats (by simp only [List.length_cons]; omega),
            ih (bs.length + 1 + ats.length) (by omega) (b :: bs) ats
              (by simp only [List.length_cons]; omega)]
        have e3 : diffStepFuel jitter fuel bs ats
            = diffStepFuel jitter (bs.length + 1 + ats.length) bs ats := by
          rw [ih fuel (by omega) bs ats (by omega),
            ih (bs.length + 1 + ats.length) (by omega) bs ats (by omega)]
        show diffStepFuel jitter (fuel + 1) (b :: bs) (a :: ats)
          = diffStepFuel jitter ((b :: bs).length + (a :: ats).length) (b :: bs) (a :: ats)
        rw [show (b :: bs).length + (a :: ats).length = (bs.length + 1 + ats.length) + 1 by
          simp only [List.length_cons]; omega]
        simp only [diffStepFuel]
        rw [e1, e2, e3]

theorem diffGen_nil_nil (jitter : Nat) : diffGen jitter [] [] = [] := rfl

theorem diffGen_cons_nil (jitter : Nat) (b : IoAccess) (bs : List IoAccess) :
    diffGen jitter (b :: bs) [] =
      mkDiag b .Error (.Removed b.addr b.data) :: diffGen jitter bs [] := by
  show mkDiag b .Error (.Removed b.addr b.data) :: diffStepFuel jitter bs.length bs [] = _
  rw [diffStepFuel_irrel jitter bs.length bs [] (by simp)]

theorem diffGen_nil_cons (jitter : Nat) (a : IoAccess) (ats : List IoAccess) :
    diffGen jitter [] (a :: ats) =
      mkDiag a .Error (.Added a.addr a.data) :: diffGen jitter [] ats := by
  show mkDiag a .Error (.Added a.addr a.data) :: diffStepFuel jitter (0 + ats.length) [] ats = _
  rw [diffStepFuel_irrel jitter (0 + ats.length) [] ats (by simp)]

theorem diffGen_cons_cons (jitter : Nat) (b a : IoAccess) (bs ats : List IoAccess) :
    diffGen jitter (b :: bs) (a :: ats) =
      (if b.when.tick < a.when.tick then
        mkDiag b .Error (.Removed b.addr b.data) :: diffGen jitter bs (a :: ats)
      else if a.when.tick < b.when.tick then
        mkDiag a .Error (.Added a.addr a.data) :: diffGen jitter (b :: bs) ats
      else if b = a then
        diffGen jitter bs ats
      else if b.addr = a.addr then
        if b.data = a.data then
          mkDiag a
              (if absDiff b.when.cycle a.when.cycle < jitter then .Note else .Error)
              (.Moved b.addr b.data ((a.when.cycle : Int) - (b.when.cycle : Int)))
            :: diffGen jitter bs ats
        else
          mkDiag a .Error (.OtherValue b.addr b.data a.data) :: diffGen jitter bs ats
      else if b.data = a.data then
        mkDiag a .Error (.OtherReg b.addr b.data a.addr) :: diffGen jitter bs ats
      else if bs.head?.map IoAccess.addr = some a.addr then
        mkDiag b .Error (.Removed b.addr b.data) :: diffGen jitter bs (a :: ats)
      else if ats.head?.map IoAccess.addr = some b.addr then
        mkDiag a .Error (.Added a.addr a.data) :: diffGen jitter (b :: bs) ats
      else if b.when.cycle < a.when.cycle then
        mkDiag b .Error (.Removed b.addr b.data) :: diffGen jitter bs (a :: ats)
      else
        mkDiag a .Error (.Added a.addr a.data) :: diffGen jitter (b :: bs) ats) := by
  show diffStepFuel jitter ((b :: bs).length + (a :: ats).length) (b :: bs) (a :: ats) = _
  rw [show (b :: bs).length + (a :: ats).length = (bs.length + 1 + ats.length) + 1 by
    simp only [List.length_cons]; omega]
  simp only [diffStepFuel]
  rw [diffStepFuel_irrel jitter _ bs (a :: ats) (by simp only [List.length_cons]; omega),
    diffStepFuel_irrel jitter _ (b :: bs) ats (by simp only [List.length_cons]; omega),
    diffStepFuel_irrel jitter _ bs ats (by omega)]

theorem diffGen_refl (jitter : Nat) (L : List IoAccess) : diffGen jitter L L = [] := by
  induction L with
  | nil => rfl
  | cons c L ih =>
      rw [diffGen_cons_cons]
      simp [ih]

theorem diffGen_append_one (jitter : Nat) (L : List IoAccess) (x : IoAccess) :
    diffGen jitter L (L ++ [x]) = [mkDiag x .Error (.Added x.addr x.data)] := by
  induction L with
  | nil =>
      rw [List.nil_append, diffGen_nil_cons, diffGen_nil_nil]
  | cons c L ih =>
      rw [List.cons_append, diffGen_cons_cons]
      simp [ih]

/-- C2: diffing two identical I/O logs yields no diagnostics, and diffing a
log `L` against `L` with one access `x` appended — `x` timestamped no
earlier than the last entry of `L` — yields exactly one diagnostic: an
`Added(x.addr, x.data)` stamped with the timestamp and PC of `x`. -/
theorem diff_identical_logs (jitter : Nat) (L : List IoAccess) (x : IoAccess)
    (hx : ∀ e, L.getLast? = some e → Timestamp.le e.when x.when) :
    diffGen jitter L L = [] ∧
    diffGen jitter L (L ++ [x]) = [mkDiag x .Error (.Added x.addr x.data)] :=
  ⟨diffGen_refl jitter L, diffGen_append_one jitter L x⟩

theorem diff_identical_logs_witness :
    diffGen 20
        [⟨⟨1, 4⟩, ⟨1, 0x400⟩, 0xFF26, 0x80⟩]
        [⟨⟨1, 4⟩, ⟨1, 0x400⟩, 0xFF26, 0x80⟩, ⟨⟨2, 6⟩, ⟨1, 0x412⟩, 0xFF24, 0x77⟩]
      = [mkDiag ⟨⟨2, 6⟩, ⟨1, 0x412⟩, 0xFF24, 0x77⟩ .Error (.Added 0xFF24 0x77)] :=
  (diff_identical_logs 20 [⟨⟨1, 4⟩, ⟨1, 0x400⟩, 0xFF26, 0x80⟩]
    ⟨⟨2, 6⟩, ⟨1, 0x412⟩, 0xFF24, 0x77⟩
    (fun e he => by
      simp only [List.getLast?_singleton, Option.some_inj] at he
      exact Or.inl (by rw [← he]; decide))).2

/-- C4: when both cursors sit on same-tick accesses that agree on address
and data but not on cycle, the generator emits exactly one `Moved`
diagnostic — delta `i32(a.cycle) - i32(b.cycle)`, level `Note` when
`|a.cycle - b.cycle| < jitter` and `Error` otherwise — and advances both
cursors. -/
theorem diff_moved_spec (jitter : Nat) (b a : IoAccess) (bs ats : List IoAccess)
    (htick : b.when.tick = a.when.tick) (haddr : b.addr = a.addr)
    (hdata : b.data = a.data) (hcycle : b.when.cycle ≠ a.when.cycle) :
    diffGen jitter (b :: bs) (a :: ats) =
      mkDiag a
          (if absDiff b.when.cycle a.when.cycle < jitter then .Note else .Error)
          (.Moved b.addr b.data ((a.when.cycle : Int) - (b.when.cycle : Int)))
        :: diffGen jitter bs ats := by
  rw [diffGen_cons_cons]
  have hne : ¬ b = a := fun hba => hcycle (by rw [hba])
  rw [if_neg (by omega), if_neg (by omega), if_neg hne, if_pos haddr, if_pos hdata]

theorem diff_moved_spec_witness :
    diffGen 20 [⟨⟨1, 10⟩, ⟨1, 0x400⟩, 0xFF13, 0x40⟩] [⟨⟨1, 25⟩, ⟨1, 0x408⟩, 0xFF13, 0x40⟩]
      = [mkDiag ⟨⟨1, 25⟩, ⟨1, 0x408⟩, 0xFF13, 0x40⟩ .Note (.Moved 0xFF13 0x40 15)] := by
  have h := diff_moved_spec 20 ⟨⟨1, 10⟩, ⟨1, 0x400⟩, 0xFF13, 0x40⟩
    ⟨⟨1, 25⟩, ⟨1, 0x408⟩, 0xFF13, 0x40⟩ [] [] rfl rfl rfl (by decide)
  rw [h, diffGen_nil_nil]
  norm_num [absDiff]

/-- C3 counterexample: swapping the two logs does not round-trip through the
kind exchange.  With a pair moved by 7 cycles followed by a pair differing
in both address and data at equal cycles, the two runs stamp the `Moved`
diagnostic from different sides and order the trailing `Added`/`Removed`
pair differently, so the sequences disagree. -/
theorem diff_swap_counterexample :
    ¬ (diffGen 20
        [⟨⟨1, 7⟩, ⟨1, 0x400⟩, 0xFF12, 5⟩, ⟨⟨1, 9⟩, ⟨1, 0x400⟩, 0xFF24, 2⟩]
        [⟨⟨1, 0⟩, ⟨1, 0x400⟩, 0xFF12, 5⟩, ⟨⟨1, 9⟩, ⟨1, 0x400⟩, 0xFF16, 1⟩]
      = (diffGen 20
        [⟨⟨1, 0⟩, ⟨1, 0x400⟩, 0xFF12, 5⟩, ⟨⟨1, 9⟩, ⟨1, 0x400⟩, 0xFF16, 1⟩]
        [⟨⟨1, 7⟩, ⟨1, 0x400⟩, 0xFF12, 5⟩, ⟨⟨1, 9⟩, ⟨1, 0x400⟩, 0xFF24, 2⟩]).map swapDiag) := by
  decide

theorem absDiff_comm (x y : Nat) : absDiff x y = absDiff y x := by
  unfold absDiff; omega

/-- C3 amended: for logs in which every same-tick pair of accesses (one
from each log) agrees on address or on data — so the double-mismatch
lookahead path is never taken — exchanging the two logs round-trips at the
level/kind granularity: run on `(A, B)` equals the run on `(B, A)` with
`Removed`/`Added` exchanged, `Moved` deltas negated and
`OtherValue`/`OtherReg` argument order swapped, levels unchanged.
Timestamps and PCs are not preserved: `Moved`, `OtherValue` and `OtherReg`
diagnostics are stamped from whichever log is `after`. -/
theorem diff_swap_kinds (jitter : Nat) (b a : List IoAccess)
    (hyp : ∀ x ∈ b, ∀ y ∈ a, x.when.tick = y.when.tick → x.addr = y.addr ∨ x.data = y.data) :
    (diffGen jitter a b).map (fun d => (d.level, d.kind)) =
      (diffGen jitter b a).map (fun d => (d.level, swapKind d.kind)) := by
  suffices H : ∀ (n : Nat) (b a : List IoAccess), b.length + a.length = n →
      (∀ x ∈ b, ∀ y ∈ a, x.when.tick = y.when.tick → x.addr = y.addr ∨ x.data = y.data) →
      (diffGen jitter a b).map (fun d => (d.level, d.kind)) =
        (diffGen jitter b a).map (fun d => (d.level, swapKind d.kind)) from
    H (b.length + a.length) b a rfl hyp
  intro n
  induction n using Nat.strong_induction_on with
  | _ n ih =>
    intro b a hn hyp
    match b, a with
    | [], [] => simp [diffGen_nil_nil]
    | xb :: bs, [] =>
        rw [diffGen_nil_cons, diffGen_cons_nil]
        simp only [List.map_cons]
        refine congrArg₂ _ rfl ?_
        exact ih (bs.length + 0) (by simp at hn; omega) bs [] (by simp)
          (fun x hx y hy => absurd hy (List.not_mem_nil y))
    | [], ya :: ats =>
        rw [diffGen_cons_nil, diffGen_nil_cons]
        simp only [List.map_cons]
        refine congrArg₂ _ rfl ?_
        exact ih (0 + ats.length) (by simp at hn; omega) [] ats (by simp)
          (fun x hx => absurd hx (List.not_mem_nil x))
    | xb :: bs, ya :: ats =>
        have hyptail1 : ∀ x ∈ bs, ∀ y ∈ (ya :: ats), x.when.tick = y.when.tick →
            x.addr = y.addr ∨ x.data = y.data :=
          fun x hx y hy => hyp x (List.mem_cons_of_mem _ hx) y hy
        have hyptail2 : ∀ x ∈ (xb :: bs), ∀ y ∈ ats, x.when.tick = y.when.tick →
            x.addr = y.addr ∨ x.data = y.data :=
          fun x hx y hy => hyp x hx y (List.mem_cons_of_mem _ hy)
        have hyptail3 : ∀ x ∈ bs, ∀ y ∈ ats, x.when.tick = y.when.tick →
            x.addr = y.addr ∨ x.data = y.data :=
          fun x hx y hy => hyp x (List.mem_cons_of_mem _ hx) y (List.mem_cons_of_mem _ hy)
        have hlen : bs.length + (ya :: ats).length < n := by
          simp only [List.length_cons] at hn ⊢; omega
        have hlen2 : (xb :: bs).length + ats.length < n := by
          simp only [List.length_cons] at hn ⊢; omega
        have hlen3 : bs.length + ats.length < n := by
          simp only [List.length_cons] at hn; omega
        rcases Nat.lt_trichotomy xb.when.tick ya.when.tick with hlt | heq | hgt
        · conv_lhs => rw [diffGen_cons_cons, if_neg (show ¬ ya.when.tick < xb.when.tick by omega),
            if_pos hlt]
          conv_rhs => rw [diffGen_cons_cons, if_pos hlt]
          simp only [List.map_cons]
          refine congrArg₂ _ rfl ?_
          exact ih _ hlen bs (ya :: ats) rfl hyptail1
        · by_cases hba : xb = ya
          · conv_lhs => rw [diffGen_cons_cons, if_neg (show ¬ ya.when.tick < xb.when.tick by omega),
              if_neg (show ¬ xb.when.tick < ya.when.tick by omega), if_pos hba.symm]
            conv_rhs => rw [diffGen_cons_cons,
              if_neg (show ¬ xb.when.tick < ya.when.tick by omega),
              if_neg (show ¬ ya.when.tick < xb.when.tick by omega), if_pos hba]
            exact ih _ hlen3 bs ats rfl hyptail3
          · have nab : ¬ ya = xb := fun hh => hba hh.symm
            rcases hyp xb (List.mem_cons_self _ _) ya (List.mem_cons_self _ _) heq with
              haddr | hdata
            · by_cases hdata : xb.data = ya.data
              · -- timing-only difference: Moved on both sides
                conv_lhs => rw [diffGen_cons_cons,
                  if_neg (show ¬ ya.when.tick < xb.when.tick by omega),
                  if_neg (show ¬ xb.when.tick < ya.when.tick by omega), if_neg nab,
                  if_pos haddr.symm, if_pos hdata.symm]
                conv_rhs => rw [diffGen_cons_cons,
                  if_neg (show ¬ xb.when.tick < ya.when.tick by omega),
                  if_neg (show ¬ ya.when.tick < xb.when.tick by omega), if_neg hba,
                  if_pos haddr, if_pos hdata]
                simp only [List.map_cons]
                refine congrArg₂ _ ?_ (ih _ hlen3 bs ats rfl hyptail3)
                simp only [mkDiag, swapKind, absDiff_comm ya.when.cycle xb.when.cycle,
                  haddr, hdata]
                refine congrArg₂ _ rfl ?_
                simp only [DiffKind.Moved.injEq, true_and]
                omega
              · -- same register, different value: OtherValue on both sides
                conv_lhs => rw [diffGen_cons_cons,
                  if_neg (show ¬ ya.when.tick < xb.when.tick by omega),
                  if_neg (show ¬ xb.when.tick < ya.when.tick by omega), if_neg nab,
                  if_pos haddr.symm, if_neg (show ¬ ya.data = xb.data from
                    fun hh => hdata hh.symm)]
                conv_rhs => rw [diffGen_cons_cons,
                  if_neg (show ¬ xb.when.tick < ya.when.tick by omega),
                  if_neg (show ¬ ya.when.tick < xb.when.tick by omega), if_neg hba,
                  if_pos haddr, if_neg hdata]
                simp only [List.map_cons]
                refine congrArg₂ _ ?_ (ih _ hlen3 bs ats rfl hyptail3)
                simp [mkDiag, swapKind, haddr]
            · by_cases haddr : xb.addr = ya.addr
              · conv_lhs => rw [diffGen_cons_cons,
                  if_neg (show ¬ ya.when.tick < xb.when.tick by omega),
                  if_neg (show ¬ xb.when.tick < ya.when.tick by omega), if_neg nab,
                  if_pos haddr.symm, if_pos hdata.symm]
                conv_rhs => rw [diffGen_cons_cons,
                  if_neg (show ¬ xb.when.tick < ya.when.tick by omega),
                  if_neg (show ¬ ya.when.tick < xb.when.tick by omega), if_neg hba,
                  if_pos haddr, if_pos hdata]
                simp only [List.map_cons]
                refine congrArg₂ _ ?_ (ih _ hlen3 bs ats rfl hyptail3)
                simp only [mkDiag, swapKind, absDiff_comm ya.when.cycle xb.when.cycle,
                  haddr, hdata]
                refine congrArg₂ _ rfl ?_
                simp only [DiffKind.Moved.injEq, true_and]
                omega
              · -- same value, different register: OtherReg on both sides
                conv_lhs => rw [diffGen_cons_cons,
                  if_neg (show ¬ ya.when.tick < xb.when.tick by omega),
                  if_neg (show ¬ xb.when.tick < ya.when.tick by omega), if_neg nab,
                  if_neg (show ¬ ya.addr = xb.addr from fun hh => haddr hh.symm),
                  if_pos hdata.symm]
                conv_rhs => rw [diffGen_cons_cons,
                  if_neg (show ¬ xb.when.tick < ya.when.tick by omega),
                  if_neg (show ¬ ya.when.tick < xb.when.tick by omega), if_neg hba,
                  if_neg haddr, if_pos hdata]
                simp only [List.map_cons]
                refine congrArg₂ _ ?_ (ih _ hlen3 bs ats rfl hyptail3)
                simp [mkDiag, swapKind, hdata]
        · conv_lhs => rw [diffGen_cons_cons, if_pos hgt]
          conv_rhs => rw [diffGen_cons_cons,
            if_neg (show ¬ xb.when.tick < ya.when.tick by omega), if_pos hgt]
          simp only [List.map_cons]
          refine congrArg₂ _ rfl ?_
          exact ih _ hlen2 (xb :: bs) ats rfl hyptail2

theorem diff_swap_kinds_witness :
    (diffGen 10
        [⟨⟨1, 7⟩, ⟨1, 0x400⟩, 0xFF12, 5⟩]
        [⟨⟨1, 0⟩, ⟨1, 0x410⟩, 0xFF12, 5⟩, ⟨⟨2, 3⟩, ⟨1, 0x41C⟩, 0xFF16, 9⟩]).map
        (fun d => (d.level, d.kind)) =
      (diffGen 10
        [⟨⟨1, 0⟩, ⟨1, 0x410⟩, 0xFF12, 5⟩, ⟨⟨2, 3⟩, ⟨1, 0x41C⟩, 0xFF16, 9⟩]
        [⟨⟨1, 7⟩, ⟨1, 0x400⟩, 0xFF12, 5⟩]).map
        (fun d => (d.level, swapKind d.kind)) :=
  diff_swap_kinds 10
    [⟨⟨1, 0⟩, ⟨1, 0x410⟩, 0xFF12, 5⟩, ⟨⟨2, 3⟩, ⟨1, 0x41C⟩, 0xFF16, 9⟩]
    [⟨⟨1, 7⟩, ⟨1, 0x400⟩, 0xFF12, 5⟩]
    (by decide)

/-- C5: full characterisation of `Gbs::new`.  The checks run in order:
truncated header, bad magic, unsupported version, zero songs, bad load
address, bad init address, bad play address; each later check is
characterised under the hypotheses that the earlier ones passed, and a
successful parse returns the blob with all address bounds and a nonzero
song count established. -/
theorem gbs_new_spec (data : List Nat) :
    (gbsNew data = .error (.TruncatedHeader data.length) ↔ data.length < 0x70) ∧
    (0x70 ≤ data.length →
      (gbsNew data = .error (.BadMagic (data.take 3)) ↔ data.take 3 ≠ [0x47, 0x42, 0x53])) ∧
    (0x70 ≤ data.length → data.take 3 = [0x47, 0x42, 0x53] →
      (gbsNew data = .error (.UnsupportedVersion (data.getD 3 0)) ↔ data.getD 3 0 ≠ 1)) ∧
    (0x70 ≤ data.length → data.take 3 = [0x47, 0x42, 0x53] → data.getD 3 0 = 1 →
      (gbsNew data = .error .ZeroSongs ↔ gbsNbSongs data = 0)) ∧
    (0x70 ≤ data.length → data.take 3 = [0x47, 0x42, 0x53] → data.getD 3 0 = 1 →
      gbsNbSongs data ≠ 0 →
      ((∃ k addrv, gbsNew data = .error (.BadAddress k addrv)) ↔
        (¬ (0x400 ≤ gbsAddr data .load ∧ gbsAddr data .load ≤ 0x4000) ∨
        ¬ (gbsAddr data .load ≤ gbsAddr data .init ∧ gbsAddr data .init < 0x8000) ∨
        ¬ (gbsAddr data .load ≤ gbsAddr data .play ∧ gbsAddr data .play < 0x8000)))) ∧
    (∀ d, gbsNew data = .ok d →
      d = data ∧
      0x400 ≤ gbsAddr data .load ∧ gbsAddr data .load ≤ 0x4000 ∧
      gbsAddr data .load ≤ gbsAddr data .init ∧ gbsAddr data .init < 0x8000 ∧
      gbsAddr data .load ≤ gbsAddr data .play ∧ gbsAddr data .play < 0x8000 ∧
      1 ≤ gbsNbSongs data) ∧
    (0x70 ≤ data.length → data.take 3 = [0x47, 0x42, 0x53] → data.getD 3 0 = 1 →
      gbsNbSongs data ≠ 0 →
      (0x400 ≤ gbsAddr data .load ∧ gbsAddr data .load ≤ 0x4000) →
      (gbsAddr data .load ≤ gbsAddr data .init ∧ gbsAddr data .init < 0x8000) →
      (gbsAddr data .load ≤ gbsAddr data .play ∧ gbsAddr data .play < 0x8000) →
      gbsNew data = .ok data) := by
  unfold gbsNew
  split_ifs with h1 h2 h3 h4 h5 h6 h7 <;>
    simp_all <;> omega

theorem gbs_new_spec_witness :
    gbsNew [] = .error (.TruncatedHeader 0) :=
  (gbs_new_spec []).1.mpr (by decide)

theorem cycles_per_tick_double_speed_core (ctrl : Nat) :
    (ctrl ^^^ 0x80) &&& 3 = ctrl &&& 3 ∧ (ctrl ^^^ 0x80) &&& 4 = ctrl &&& 4 := by
  constructor
  · rw [Nat.and_xor_distrib_right, show 0x80 &&& 3 = 0 from rfl, Nat.xor_zero]
  · rw [Nat.and_xor_distrib_right, show 0x80 &&& 4 = 0 from rfl, Nat.xor_zero]

/-- C9: with the timer enabled, `cycles_per_tick` is
`2 ^ timer_div_bit * (256 - timer_mod)` reduced modulo `2 ^ 16` (u16
arithmetic); with it disabled it is `114 * 154 = 17556`; the DIV-bit table
is `{9, 3, 5, 7}` indexed by bits 0-1 of `timer_ctrl`; and toggling the
double-speed bit (bit 7) never changes the value. -/
theorem cycles_per_tick_spec (ctrl tmod : Nat) (h : tmod < 256) :
    (cyclesPerTick ctrl tmod =
      if ctrl &&& 4 ≠ 0 then (2 ^ timerDivBit ctrl * (256 - tmod)) % 2 ^ 16
      else 17556) ∧
    timerDivBit ctrl = [9, 3, 5, 7].getD (ctrl &&& 3) 0 ∧
    cyclesPerTick (ctrl ^^^ 0x80) tmod = cyclesPerTick ctrl tmod := by
  refine ⟨?_, ?_, ?_⟩
  · unfold cyclesPerTick useTimer
    rw [Nat.shiftLeft_eq, Nat.one_mul]
    simp only [bne_iff_ne, ne_eq]
  · have h3 : ctrl &&& 3 ≤ 3 := Nat.and_le_right
    unfold timerDivBit
    rcases (by omega : ctrl &&& 3 = 0 ∨ ctrl &&& 3 = 1 ∨ ctrl &&& 3 = 2 ∨ ctrl &&& 3 = 3)
      with h4 | h4 | h4 | h4 <;> rw [h4] <;> rfl
  · unfold cyclesPerTick useTimer timerDivBit
    rw [(cycles_per_tick_double_speed_core ctrl).1, (cycles_per_tick_double_speed_core ctrl).2]

theorem cycles_per_tick_spec_witness :
    cyclesPerTick (0x07 ^^^ 0x80) 0xC0 = cyclesPerTick 0x07 0xC0 :=
  (cycles_per_tick_spec 0x07 0xC0 (by decide)).2.2

theorem diagnose_io_log (w : LogbookWriter) (level : DiagnosticLevel) (kind : SimKind) :
    (w.diagnose level kind).logbook.io_log = w.logbook.io_log := by
  unfold LogbookWriter.diagnose
  split <;> rfl

theorem apuWrite_io_log (s : SimSt) (addr data : Nat) :
    ((apuWrite s addr data).1).writer.logbook.io_log =
      s.writer.logbook.io_log ++
        [⟨s.writer.now, ⟨s.writer.rom_bank, s.writer.pc⟩, addr, data⟩] := by
  unfold apuWrite
  split_ifs with h1 h2 <;> simp [diagnose_io_log, LogbookWriter.log]

/-- C1 amended: one write appends an `IoAccess` exactly when its address is
in the I/O range `[0xFF00, 0xFF7F]` — `Apu::write` logs before matching
the register, so writes to unmodelled I/O registers are logged too — and
the appended entry carries the written address and data, stamped with the
writer's current timestamp and `(rom_bank, pc)`.  Hence every `io_log`
entry has `addr ∈ [0xFF00, 0xFF7F]`, not only the APU band. -/
theorem io_log_io_range (s : SimSt) (addr data : Nat) :
    (gbsWrite s addr data).writer.logbook.io_log =
      s.writer.logbook.io_log ++
        (if 0xFF00 ≤ addr ∧ addr ≤ 0xFF7F then
          [⟨s.writer.now, ⟨s.writer.rom_bank, s.writer.pc⟩, addr, data⟩]
        else []) := by
  unfold gbsWrite
  split_ifs with h1 h2 h3 h4 h5 h6 h7 h8 h9 h10 h11 <;>
    try (first
      | (exfalso; omega)
      | simp [diagnose_io_log])
  all_goals (
    rcases hres : apuWrite s addr data with ⟨s1, handled⟩
    have hlog := apuWrite_io_log s addr data
    rw [hres] at hlog
    cases handled
    · simpa [diagnose_io_log] using hlog
    · simpa using hlog)

/-- C1 counterexample: writing 0x30 to the joypad register 0xFF00 — an I/O
address that is not a modelled APU register or wave-RAM byte — appends an
`IoAccess` whose address lies outside the APU band [0xFF10, 0xFF3F]. -/
theorem io_log_apu_band_counterexample :
    ¬ (∀ e ∈ (gbsWrite (SimSt.start .Warning) 0xFF00 0x30).writer.logbook.io_log,
        0xFF10 ≤ e.addr ∧ e.addr ≤ 0xFF3F) := by
  decide

/-- C10: a write to an undefined APU hole (0xFF15 or 0xFF1F) appends the
`IoAccess` for the write, emits a Note-level `UnsupportedWrite` through
the filtering writer, resets the silence timer to 0, reports the write as
handled, and leaves every stored register and wave-RAM byte unchanged. -/
theorem apu_hole_write_spec (s : SimSt) (addr data : Nat)
    (h : addr = 0xFF15 ∨ addr = 0xFF1F) :
    apuWrite s addr data =
      ({ s with
          writer := (s.writer.log addr data).diagnose .Note
            (.UnsupportedWrite ⟨s.writer.rom_bank, addr⟩ data),
          silence_timer := 0 }, true) := by
  rcases h with h | h <;> subst h <;>
    (unfold apuWrite
     rw [if_neg (by decide), if_pos (by decide)]
     rfl)

theorem apu_hole_write_spec_witness :
    apuWrite (SimSt.start .Note) 0xFF15 0xAB =
      ({ SimSt.start .Note with
          writer := ((SimSt.start .Note).writer.log 0xFF15 0xAB).diagnose .Note
            (.UnsupportedWrite ⟨(SimSt.start .Note).writer.rom_bank, 0xFF15⟩ 0xAB),
          silence_timer := 0 }, true) :=
  apu_hole_write_spec (SimSt.start .Note) 0xFF15 0xAB (Or.inl rfl)

theorem apuRead_table (s : SimSt) (p : Nat × Nat) (hp : p ∈ apuMaskTable) :
    apuRead s p.1 = some ((if p.2 = 0xFF then 0xFF else s.apu p.1 ||| p.2), s) := by
  fin_cases hp <;> simp [apuRead]

theorem mask_and_compl (M : Nat) (h : M < 256) : M &&& (0xFF ^^^ M) = 0 := by
  apply Nat.eq_of_testBit_eq
  intro i
  simp only [Nat.testBit_and, Nat.testBit_xor, Nat.zero_testBit]
  by_cases hi : i < 8
  · have hC : Nat.testBit 0xFF i = true := by
      interval_cases i <;> decide
    rw [hC]
    cases M.testBit i <;> decide
  · have hM : M.testBit i = false := by
      apply Nat.testBit_eq_false_of_lt
      calc M < 256 := h
        _ = 2 ^ 8 := by norm_num
        _ ≤ 2 ^ i := Nat.pow_le_pow_right (by norm_num) (by omega)
    rw [hM]
    simp

theorem or_and_of_and_eq_zero (v M C : Nat) (h : M &&& C = 0) :
    (v ||| M) &&& C = v &&& C := by
  apply Nat.eq_of_testBit_eq
  intro i
  have hbit : (M &&& C).testBit i = false := by rw [h]; exact Nat.zero_testBit i
  rw [Nat.testBit_and] at hbit
  simp only [Nat.testBit_and, Nat.testBit_or]
  cases hv : v.testBit i <;> cases hm : M.testBit i <;> cases hc : C.testBit i <;>
    simp_all

theorem apuWrite_apu (s : SimSt) (addr data : Nat) :
    ((apuWrite s addr data).1).apu =
      if addr ∈ apuStoreTargets then Function.update s.apu addr data else s.apu := by
  unfold apuWrite
  split_ifs with h1 h2 <;> rfl

theorem lastWrite_foldl (r : Nat) (ws : List (Nat × Nat)) :
    ∀ acc : Option Nat,
      ws.foldl (fun a w => if w.1 = r then some w.2 else a) acc =
        (match lastWrite ws r with
          | some v => some v
          | none => acc) := by
  induction ws with
  | nil => intro acc; rfl
  | cons w ws ih =>
      intro acc
      show ws.foldl _ (if w.1 = r then some w.2 else acc) = _
      rw [ih]
      have hcons : lastWrite (w :: ws) r
          = ws.foldl (fun a w => if w.1 = r then some w.2 else a)
              (if w.1 = r then some w.2 else none) := rfl
      rw [hcons, ih]
      rcases hlw : lastWrite ws r with _ | v <;> by_cases hw : w.1 = r <;> simp [hlw, hw]

theorem applyApuWrites_apu (r : Nat) (hr : r ∈ apuStoreTargets) :
    ∀ (ws : List (Nat × Nat)) (s : SimSt),
      (applyApuWrites s ws).apu r =
        (match lastWrite ws r with
          | some v => v
          | none => s.apu r) := by
  intro ws
  induction ws with
  | nil => intro s; rfl
  | cons w ws ih =>
      intro s
      show (applyApuWrites ((apuWrite s w.1 w.2).1) ws).apu r = _
      rw [ih]
      have happ : ((apuWrite s w.1 w.2).1).apu r = if w.1 = r then w.2 else s.apu r := by
        rw [apuWrite_apu]
        by_cases hw : w.1 ∈ apuStoreTargets
        · rw [if_pos hw]
          by_cases hwr : w.1 = r
          · subst hwr; simp [Function.update_same]
          · rw [Function.update_noteq (fun hh => hwr hh.symm), if_neg hwr]
        · rw [if_neg hw, if_neg (fun hh : w.1 = r => hw (hh ▸ hr))]
      have hcons : lastWrite (w :: ws) r
          = (match lastWrite ws r with
              | some v => some v
              | none => if w.1 = r then some w.2 else none) := by
        show ws.foldl _ (if w.1 = r then some w.2 else none) = _
        rw [lastWrite_foldl]
      rw [happ, hcons]
      rcases hlw : lastWrite ws r with _ | v <;> by_cases hw : w.1 = r <;> simp [hlw, hw]

/-- C7: APU read-back.  For every state: (1) reading any stored register or
wave-RAM byte returns the stored byte OR'ed with its mask from the table
(`NR10 |= 0x80`, `NR11/NR21 |= 0x3F`, `NR30 |= 0x7F`, `NR41 |= 0xC0`,
`NR52 |= 0x70`, `NR14/NR24/NR34/NR44 |= 0xBF`; the write-only
NR13/NR23/NR33/NR43 — mask 0xFF — return 0xFF outright; the remaining
registers and wave RAM — mask 0 — return the byte unchanged), leaving the
state untouched; (2) reading hole 0xFF15 or 0xFF1F returns 0xFF and emits
a Note-level `UnsupportedRead`; (3) after any sequence of APU writes whose
last write to register `R` stored `v`, the read-back AND the complement of
`R`'s mask equals `v` AND the complement: the bits outside the mask are
exactly the last value written. -/
theorem apu_read_mask_spec (s : SimSt) :
    (∀ p ∈ apuMaskTable,
      apuRead s p.1 = some ((if p.2 = 0xFF then 0xFF else s.apu p.1 ||| p.2), s)) ∧
    (∀ addr, addr = 0xFF15 ∨ addr = 0xFF1F →
      apuRead s addr = some (0xFF,
        { s with
            writer := s.writer.diagnose .Note
              (.UnsupportedRead ⟨s.writer.rom_bank, addr⟩) })) ∧
    (∀ (ws : List (Nat × Nat)), ∀ p ∈ apuMaskTable, ∀ v,
      lastWrite ws p.1 = some v →
      (apuRead (applyApuWrites s ws) p.1).map (fun o => o.1 &&& (0xFF ^^^ p.2)) =
        some (v &&& (0xFF ^^^ p.2))) := by
  refine ⟨fun p hp => apuRead_table s p hp, ?_, ?_⟩
  · rintro addr (rfl | rfl) <;> simp [apuRead]
  · intro ws p hp v hv
    have hr : p.1 ∈ apuStoreTargets := by fin_cases hp <;> decide
    have hm255 : p.2 < 256 := by fin_cases hp <;> decide
    have hstored : (applyApuWrites s ws).apu p.1 = v := by
      have h := applyApuWrites_apu p.1 hr ws s
      rw [hv] at h
      simpa using h
    rw [apuRead_table (applyApuWrites s ws) p hp]
    by_cases hFF : p.2 = 0xFF
    · rw [hFF]
      simp
    · rw [if_neg hFF, Option.map_some', hstored,
        or_and_of_and_eq_zero v p.2 (0xFF ^^^ p.2) (mask_and_compl p.2 hm255)]

theorem apu_read_mask_spec_witness :
    (apuRead (applyApuWrites (SimSt.start .Note) [(0xFF10, 0x3A), (0xFF26, 0x80)]) 0xFF10).map
        (fun o => o.1 &&& (0xFF ^^^ 0x80)) = some (0x3A &&& (0xFF ^^^ 0x80)) :=
  (apu_read_mask_spec (SimSt.start .Note)).2.2
    [(0xFF10, 0x3A), (0xFF26, 0x80)] (0xFF10, 0x80) (by decide) 0x3A (by decide)

theorem runFunc_total_le (bank origSp : Nat) :
    ∀ (script : List CpuStep) (sp pc total : Nat), total ≤ 0xFFFF →
      ∀ t, runFunc bank origSp sp pc total script = .finished (.ok t) → t ≤ 0xFFFF := by
  intro script
  induction script with
  | nil =>
      intro sp pc total htot t h
      simp only [runFunc] at h
      split_ifs at h with h1 h2 h3 <;>
        first
          | (unfold runFuncExit at h
             split_ifs at h with h4 <;>
               first
                 | (simp only [RunFuncResult.finished.injEq, Except.ok.injEq] at h; omega)
                 | simp at h)
          | simp at h
  | cons step rest ih =>
      intro sp pc total htot t h
      simp only [runFunc] at h
      split_ifs at h with h1 h2 h3 hc <;>
        first
          | (unfold runFuncExit at h
             split_ifs at h with h4 <;>
               first
                 | (simp only [RunFuncResult.finished.injEq, Except.ok.injEq] at h; omega)
                 | simp at h)
          | (rcases htr : step.tickResult with _ | _ | _ | _ | _ | _ <;>
              simp only [htr] at h <;>
              first
                | exact ih step.spAfter step.pcAfter (total + step.cycles) (by omega) t h
                | simp at h)
          | simp at h

/-- C8: the interpreter loop of `run_func` runs only while
`0x8000 ≤ SP ∧ SP ≤ orig_sp`: as soon as the guard fails it exits without
consuming a step, succeeding with the accumulated cycle total iff
`SP = orig_sp + 2` (mod 2^16) and failing with `PoppedTooDeep(SP, orig_sp)`
otherwise; when adding an instruction's cycles to the u16 total would
overflow it fails with `LockedUp`; consequently a successful call returns
at most 65535 cycles. -/
theorem run_func_spec (bank origSp sp pc total : Nat) (script : List CpuStep) :
    (¬ (0x8000 ≤ sp ∧ sp ≤ origSp) →
      runFunc bank origSp sp pc total script =
        .finished (if sp = (origSp + 2) % 2 ^ 16 then .ok total
          else .error (.PoppedTooDeep sp origSp))) ∧
    (∀ step rest, script = step :: rest →
      (0x8000 ≤ sp ∧ sp ≤ origSp) →
      ¬ (0xFF00 ≤ pc ∧ pc ≤ 0xFF7F) →
      ¬ (0xFF00 ≤ sp ∧ sp ≤ 0xFF7F) →
      (step.tickResult = .Ok ∨ step.tickResult = .Debug ∨ step.tickResult = .Break) →
      0xFFFF < total + step.cycles →
      runFunc bank origSp sp pc total script =
        .finished (.error (.LockedUp ⟨bank, pc⟩))) ∧
    (total ≤ 0xFFFF → ∀ t, runFunc bank origSp sp pc total script = .finished (.ok t) →
      t ≤ 0xFFFF) := by
  refine ⟨?_, ?_, fun htot t h => runFunc_total_le bank origSp script sp pc total htot t h⟩
  · intro h
    cases script <;>
      (simp only [runFunc]
       rw [if_neg h]
       rfl)
  · intro step rest hscript hguard hpc hsp htick hovf
    subst hscript
    simp only [runFunc]
    rw [if_pos hguard, if_neg hpc, if_neg hsp]
    rcases htick with h | h | h <;>
      simp only [h] <;>
      rw [if_neg (by omega)]

theorem run_func_spec_witness :
    runFunc 1 0xE000 0xE002 0x400 0 [] = .finished (.ok 0) := by
  have h := (run_func_spec 1 0xE000 0xE002 0x400 0 []).1 (by omega)
  rw [h]
  norm_num

/-- C6: the PLAY loop checks its termination conditions in source order —
silence timeout, then watch, then wall timeout.  With a successful tick:
if the silence timer has hit its bound the song stops with the silence
outcome, whatever the watch and timeout would say; otherwise, if the watch
predicate holds, the song stops with the watch outcome even when the
timeout would underflow in the very same tick — the `Timeout` error is
never produced then; otherwise, if the timeout does not underflow, the
loop continues with the updated silence timer and budget; and otherwise
the stop is `timeoutStop` when `allow_timeout` is set and the fatal
`timeoutError` when it is not — so each tick stops through exactly one
cause. -/
theorem play_loop_check_order (st cpt wAddr wVal : Nat) (allowT : Bool)
    (silence timeout : Nat) (t : TickInput) (rest : List TickInput)
    (c : Nat) (hok : t.runResult = .ok c) :
    (st ≤ silence →
      playLoop st cpt (some (wAddr, wVal)) allowT silence timeout (t :: rest) =
        some .silenceStop) ∧
    (silence < st → t.watchRead = wVal → timeout < cpt →
      (playLoop st cpt (some (wAddr, wVal)) allowT silence timeout (t :: rest) =
          some .watchStop ∧
        playLoop st cpt (some (wAddr, wVal)) allowT silence timeout (t :: rest) ≠
          some .timeoutError)) ∧
    (silence < st → t.watchRead ≠ wVal → cpt ≤ timeout →
      playLoop st cpt (some (wAddr, wVal)) allowT silence timeout (t :: rest) =
        playLoop st cpt (some (wAddr, wVal)) allowT ((silence + cpt) % 2 ^ 32)
          (timeout - cpt) rest) ∧
    (silence < st → t.watchRead ≠ wVal → timeout < cpt →
      playLoop st cpt (some (wAddr, wVal)) allowT silence timeout (t :: rest) =
        some (if allowT then .timeoutStop else .timeoutError)) ∧
    (∀ (t2 : TickInput) (e : RunError), t2.runResult = .error e →
      playLoop st cpt (some (wAddr, wVal)) allowT silence timeout (t2 :: rest) =
        some (.fatal e)) := by
  refine ⟨?_, ?_, ?_, ?_, ?_⟩
  · intro hsil
    simp only [playLoop, hok]
    rw [if_pos hsil]
  · intro hsil hw hto
    constructor
    · simp only [playLoop, hok]
      rw [if_neg (by omega), if_pos (by simp [hw])]
    · simp only [playLoop, hok]
      rw [if_neg (by omega), if_pos (by simp [hw])]
      simp
  · intro hsil hw hto
    simp only [playLoop, hok]
    rw [if_neg (by omega), if_neg (by simp [hw]), if_pos hto]
  · intro hsil hw hto
    simp only [playLoop, hok]
    rw [if_neg (by omega), if_neg (by simp [hw]), if_neg (by omega)]
    cases allowT <;> simp
  · intro t2 e he
    simp only [playLoop, he]

theorem play_loop_check_order_witness :
    playLoop 100 50 (some (0xC000, 7)) false 0 10 [⟨.ok 30, 7⟩] = some .watchStop :=
  ((play_loop_check_order 100 50 0xC000 7 false 0 10 ⟨.ok 30, 7⟩ [] 30 rfl).2.1
    (by omega) rfl (by omega)).1

end Gbsdiff
